import Mathlib

/-!
Verification development for the distrikv LSM storage engine.

The Go sources are shallowly embedded: byte strings become `List Nat`
(each byte a natural below 256; the codec functions act uniformly on the
entries so no bound is imposed on payload bytes), Go `uint32` arithmetic
is `Nat` arithmetic reduced modulo `2^32` where the source wraps, and the
file system is replaced by in-memory file contents.  Functions returning
Go `error` values are modelled with explicit result types; a Go runtime
panic (out-of-range slice) is a distinguished outcome, never an error
value.
-/

namespace DistriKV

/-- Byte strings (Go `[]byte` / `string`), one natural per byte. -/
abbrev Bytes := List Nat

/-- `2^32`, the modulus of Go `uint32` arithmetic. -/
def U32 : Nat := 4294967296

/-- `binary.Write(w, binary.LittleEndian, uint32(n))`: the four
little-endian bytes of `n` modulo `2^32`. -/
def putUint32 (n : Nat) : Bytes :=
  [n % 256, n / 256 % 256, n / 65536 % 256, n / 16777216 % 256]

/-- `binary.LittleEndian.Uint32(b[off:off+4])` (callers establish that the
four bytes exist; out-of-range reads default to 0 here and are guarded by
explicit bounds checks at each call site of the embedding). -/
def leUint32 (b : Bytes) (off : Nat) : Nat :=
  let s := b.drop off
  s.getD 0 0 + 256 * s.getD 1 0 + 65536 * s.getD 2 0 + 16777216 * s.getD 3 0

/-- Go slice expression `b[lo:hi]` once `lo ≤ hi ∧ hi ≤ len(b)` holds. -/
def slice (b : Bytes) (lo hi : Nat) : Bytes :=
  (b.drop lo).take (hi - lo)

/-- `storage.SSTEntry` from `src/storage/sst.go`. -/
structure SSTEntry where
  Key : Bytes
  Value : Bytes
  IsDeleted : Bool
deriving Repr, DecidableEq

/-- Outcome of `parseSSTLine`: the Go function returns
`(*SSTEntry, error)` and can also crash on an out-of-range slice. -/
inductive ParseResult where
  /-- `ErrSSTEntryEOF` (`len(line) == 0`). -/
  | eof
  /-- `errors.New("line too short")`. -/
  | errTooShort
  /-- `errors.New("data length is incorrect")`. -/
  | errBadLength
  /-- Go runtime panic: a slice bound exceeded `len(line)` (with
  `cap(line) = len(line)`; a larger capacity would instead silently read
  bytes beyond the line). -/
  | panicked
  /-- Successful decode. -/
  | ok (e : SSTEntry)
deriving Repr, DecidableEq

/-- `encodeSSTEntry` from `src/storage/sst.go` (lines 75–116): the byte
stream written to `w`, including the trailing newline byte. -/
def encodeSSTEntry (key value : Bytes) (isDeleted : Bool) : Bytes :=
  let isDeletedByte : Nat := if isDeleted then 1 else 0
  let totalLength := 4 + 4 + 4 + 1 + key.length + value.length
  putUint32 totalLength ++ putUint32 key.length ++ key ++
    putUint32 value.length ++ value ++ [isDeletedByte] ++ [10]

/-- `parseSSTLine` from `src/storage/sst.go` (lines 127–174).  Index
arithmetic such as `8+keyLength` is Go `uint32` arithmetic and hence
wraps modulo `2^32`. -/
def parseSSTLine (line : Bytes) : ParseResult :=
  if line.length = 0 then .eof
  else if line.length < 13 then .errTooShort
  -- totalLength = binary.LittleEndian.Uint32(line[0:4])
  else if line.length ≠ leUint32 line 0 then .errBadLength
  -- keyLength = binary.LittleEndian.Uint32(line[4:8]); the slice
  -- expression line[8 : 8+keyLength] wraps its bound modulo 2^32
  else if 8 ≤ (8 + leUint32 line 4) % U32 ∧
      (8 + leUint32 line 4) % U32 ≤ line.length then
    -- valLength = binary.LittleEndian.Uint32(line[8+keyLength : 12+keyLength])
    if (8 + leUint32 line 4) % U32 ≤ (12 + leUint32 line 4) % U32 ∧
        (12 + leUint32 line 4) % U32 ≤ line.length then
      -- value = line[12+keyLength : 12+keyLength+valLength]
      if (12 + leUint32 line 4) % U32 ≤
          (12 + leUint32 line 4 + leUint32 line ((8 + leUint32 line 4) % U32)) % U32 ∧
          (12 + leUint32 line 4 + leUint32 line ((8 + leUint32 line 4) % U32)) % U32 ≤
            line.length then
        .ok ⟨slice line 8 ((8 + leUint32 line 4) % U32),
             slice line ((12 + leUint32 line 4) % U32)
               ((12 + leUint32 line 4 +
                 leUint32 line ((8 + leUint32 line 4) % U32)) % U32),
             line.getD (line.length - 1) 0 == 1⟩
      else .panicked
    else .panicked
  else .panicked

example : parseSSTLine [] = .eof := by decide
example : parseSSTLine [1, 2, 3] = .errTooShort := by decide
example :
    parseSSTLine [13, 0, 0, 0, 100, 0, 0, 0, 97, 97, 97, 97, 0] = .panicked := by
  decide
example :
    parseSSTLine ((encodeSSTEntry [98] [50, 48] false).dropLast) =
      .ok ⟨[98], [50, 48], false⟩ := by decide

lemma leUint32_put (n : Nat) (rest : Bytes) :
    leUint32 (putUint32 n ++ rest) 0 = n % U32 := by
  have h : leUint32 (putUint32 n ++ rest) 0
      = n % 256 + 256 * (n / 256 % 256) + 65536 * (n / 65536 % 256) +
        16777216 * (n / 16777216 % 256) := rfl
  rw [h]; unfold U32; omega

lemma leUint32_append (pre rest : Bytes) :
    leUint32 (pre ++ rest) pre.length = leUint32 rest 0 := by
  unfold leUint32
  rw [List.drop_left, List.drop_zero]

lemma getD_append_len (pre rest : Bytes) (d : Nat) :
    (pre ++ rest).getD pre.length d = rest.getD 0 d := by
  induction pre with
  | nil => simp
  | cons a t ih => simpa using ih

lemma length_putUint32 (n : Nat) : (putUint32 n).length = 4 := rfl

/-- The byte string written by `encodeSSTEntry`, without its trailing
newline, in right-associated form. -/
lemma encode_dropLast (key value : Bytes) (d : Bool) :
    (encodeSSTEntry key value d).dropLast
      = putUint32 (13 + key.length + value.length) ++ (putUint32 key.length ++
          (key ++ (putUint32 value.length ++
            (value ++ [if d then 1 else 0])))) := by
  have hE : encodeSSTEntry key value d
      = (putUint32 (13 + key.length + value.length) ++ (putUint32 key.length ++
          (key ++ (putUint32 value.length ++
            (value ++ [if d then 1 else 0]))))) ++ [10] := by
    show putUint32 (4 + 4 + 4 + 1 + key.length + value.length) ++ _ ++ _ ++ _ ++ _ ++ _ ++ _ = _
    have h13 : 4 + 4 + 4 + 1 + key.length + value.length
        = 13 + key.length + value.length := by omega
    rw [h13]
    simp [List.append_assoc]
  rw [hE, List.dropLast_concat]

/-- Claim C10 (record codec round-trip): for every key, value and deleted
flag with `13 + |key| + |value| < 2^32`, `parseSSTLine` applied to the
bytes written by `encodeSSTEntry` with the trailing newline removed
returns exactly that key, value and deleted flag. -/
theorem parseSSTLine_encodeSSTEntry_roundtrip (key value : Bytes) (d : Bool)
    (h : 13 + key.length + value.length < U32) :
    parseSSTLine ((encodeSSTEntry key value d).dropLast) =
      .ok ⟨key, value, d⟩ := by
  have h' : 13 + key.length + value.length < 4294967296 := h
  set k := key.length with hk
  set v := value.length with hv
  set db : Nat := if d then 1 else 0 with hdb
  rw [encode_dropLast]
  set L := putUint32 (13 + k + v) ++ (putUint32 k ++
      (key ++ (putUint32 v ++ (value ++ [db])))) with hL
  have hlen : L.length = 13 + k + v := by
    simp [hL, length_putUint32]
    omega
  have hT : leUint32 L 0 = 13 + k + v := by
    rw [hL, leUint32_put]
    exact Nat.mod_eq_of_lt h'
  have hKread : leUint32 L 4 = k := by
    have e : L = putUint32 (13 + k + v) ++
        (putUint32 k ++ (key ++ (putUint32 v ++ (value ++ [db])))) := hL
    have := leUint32_append (putUint32 (13 + k + v))
        (putUint32 k ++ (key ++ (putUint32 v ++ (value ++ [db]))))
    rw [length_putUint32] at this
    rw [e, this, leUint32_put]
    exact Nat.mod_eq_of_lt (by show k < 4294967296; omega)
  have e8 : L = (putUint32 (13 + k + v) ++ putUint32 k) ++
      (key ++ (putUint32 v ++ (value ++ [db]))) := by
    simp [hL, List.append_assoc]
  have hpre8 : (putUint32 (13 + k + v) ++ putUint32 k).length = 8 := by
    simp [length_putUint32]
  have hdrop8 : L.drop 8 = key ++ (putUint32 v ++ (value ++ [db])) := by
    rw [e8]
    exact List.drop_left' hpre8
  have hVread : leUint32 L (8 + k) = v := by
    have e : L = ((putUint32 (13 + k + v) ++ putUint32 k) ++ key) ++
        (putUint32 v ++ (value ++ [db])) := by
      simp [hL, List.append_assoc]
    have hpre : ((putUint32 (13 + k + v) ++ putUint32 k) ++ key).length
        = 8 + k := by
      simp [length_putUint32]
      omega
    have := leUint32_append ((putUint32 (13 + k + v) ++ putUint32 k) ++ key)
        (putUint32 v ++ (value ++ [db]))
    rw [hpre] at this
    rw [e, this, leUint32_put]
    exact Nat.mod_eq_of_lt (by show v < 4294967296; omega)
  have hKey : slice L 8 (8 + k) = key := by
    unfold slice
    rw [hdrop8]
    have : 8 + k - 8 = k := by omega
    rw [this]
    exact List.take_left' hk.symm
  have hVal : slice L (12 + k) (12 + k + v) = value := by
    unfold slice
    have e : L = (((putUint32 (13 + k + v) ++ putUint32 k) ++ key) ++
        putUint32 v) ++ (value ++ [db]) := by
      simp [hL, List.append_assoc]
    have hpre : (((putUint32 (13 + k + v) ++ putUint32 k) ++ key) ++
        putUint32 v).length = 12 + k := by
      simp [length_putUint32]
      omega
    have hdrop : L.drop (12 + k) = value ++ [db] := by
      rw [e]
      exact List.drop_left' hpre
    rw [hdrop]
    have : 12 + k + v - (12 + k) = v := by omega
    rw [this]
    exact List.take_left' hv.symm
  have hDb : L.getD (13 + k + v - 1) 0 = db := by
    have e : L = ((((putUint32 (13 + k + v) ++ putUint32 k) ++ key) ++
        putUint32 v) ++ value) ++ [db] := by
      simp [hL, List.append_assoc]
    have hpre : ((((putUint32 (13 + k + v) ++ putUint32 k) ++ key) ++
        putUint32 v) ++ value).length = 12 + k + v := by
      simp [length_putUint32]
      omega
    have h1 : 13 + k + v - 1 = 12 + k + v := by omega
    rw [h1, e, ← hpre, getD_append_len]
    rfl
  have hm8 : (8 + k) % U32 = 8 + k := Nat.mod_eq_of_lt (by
    show 8 + k < 4294967296
    omega)
  have hm12 : (12 + k) % U32 = 12 + k := Nat.mod_eq_of_lt (by
    show 12 + k < 4294967296
    omega)
  have hm12v : (12 + k + v) % U32 = 12 + k + v := Nat.mod_eq_of_lt (by
    show 12 + k + v < 4294967296
    omega)
  unfold parseSSTLine
  rw [hlen, hT, hKread]
  rw [if_neg (by omega), if_neg (by omega), if_neg (by omega)]
  rw [hm8, if_pos (by omega)]
  rw [hm12, if_pos (by omega)]
  rw [hVread, hm12v, if_pos (by omega)]
  rw [hKey, hVal, hDb]
  have : (db == 1) = d := by
    rw [hdb]
    cases d <;> rfl
  rw [this]

/-- Witness for C10 at a concrete record. -/
theorem parseSSTLine_encodeSSTEntry_roundtrip_witness :
    13 + ([97] : Bytes).length + ([120, 121] : Bytes).length < U32 ∧
      parseSSTLine ((encodeSSTEntry [97] [120, 121] true).dropLast) =
        .ok ⟨[97], [120, 121], true⟩ :=
  ⟨by decide, parseSSTLine_encodeSSTEntry_roundtrip [97] [120, 121] true (by decide)⟩

/-- Claim C8: the claim states that `parseSSTLine` is total and returns a
Malformed-class error whenever a declared key length overruns the record
bytes.  The code instead evaluates the Go slice expression
`line[8 : 8+keyLength]` without a bounds check: on the 13-byte input with
`total_len = 13` and `key_len = 100` the slice bound 108 exceeds the line
length and the function crashes with a runtime panic (or, when the
scanner buffer's capacity exceeds the line, silently reads bytes beyond
the record), rather than returning an error value. -/
theorem parseSSTLine_overrun_panics :
    parseSSTLine [13, 0, 0, 0, 100, 0, 0, 0, 97, 97, 97, 97, 0] =
      .panicked := by decide

/-! ## SST lifecycle states and metadata trailer (`src/storage/sst.go`,
`src/storage/sst_manager.go`) -/

/-- `SSTState` constants from `src/storage/sst_manager.go`. -/
inductive SSTState where
  | SST_FLUSHING
  | SST_FLUSHED
  | SST_COMPACTING
  | SST_COMPACTED
deriving Repr, DecidableEq

/-- `strings.Split(s, "\n")` on a character list: every separator starts a
new group, empty groups preserved, always at least one group. -/
def splitNl : List Char → List (List Char)
  | [] => [[]]
  | c :: rest =>
    match splitNl rest with
    | [] => [[]]
    | g :: gs => if c = '\n' then [] :: g :: gs else (c :: g) :: gs

/-- `strings.HasPrefix` on character lists. -/
def goHasPrefix : List Char → List Char → Bool
  | _, [] => true
  | [], _ :: _ => false
  | c :: cs, p :: ps => c = p && goHasPrefix cs ps

/-- `strings.HasPrefix` on strings. -/
def goStringHasPrefix (s pre : String) : Bool :=
  goHasPrefix s.data pre.data

/-- Value of a run of decimal digit characters. -/
def digitsVal (l : List Char) : Nat :=
  l.foldl (fun a c => a * 10 + (c.toNat - 48)) 0

/-- `fmt.Sscanf(s, "%d", &x)` after the literal prefix has matched: reads
the leading digit run; when there is none the scan fails and `x` keeps
its previous value.  (Go also accepts a sign and leading spaces; trailers
written by the system never contain either.) -/
def scanNatChars (l : List Char) (old : Nat) : Nat :=
  let ds := l.takeWhile Char.isDigit
  if ds.isEmpty then old else digitsVal ds

/-- `fmt.Sscanf(s, "%s", &t)`: the leading whitespace-free token. -/
def scanTokenChars (l : List Char) : List Char :=
  l.takeWhile (fun c => !c.isWhitespace)

/-- In-memory `storage.SST` descriptor from `src/storage/sst.go` (the
variant carrying an `ID`).  Timestamps are carried as their RFC3339
strings; `time.Parse` of a token produced by `time.Format` is modelled as
the identity (this only over-approximates the parser's success and plays
no role in the refutations below). -/
structure SSTMeta where
  ID : Nat
  FileName : String
  Level : Nat
  Timestamp : String
  Status : SSTState
deriving Repr, DecidableEq

/-- `writeSSTMetadata` from `src/storage/sst.go` (lines 118–125): the
trailer string appended to an SST file. -/
def writeSSTMetadata (id : Nat) (level : Nat) (timestamp : String) : String :=
  "\n<metadata>\nlevel: " ++ toString level ++ "\ntimestamp: " ++ timestamp ++
    "\nid: " ++ toString id ++ "\n<sst_done>"

/-- The `for _, line := range lines` loop of `parseSSTMetadata`: matches
the three known prefixes and otherwise `break`s, returning
`(level, timestamp, id)` with Go zero values as defaults. -/
def metaScan : List (List Char) → Nat → List Char → Nat → Nat × List Char × Nat
  | [], lvl, ts, id => (lvl, ts, id)
  | line :: rest, lvl, ts, id =>
    if goHasPrefix line "level: ".data then
      metaScan rest (scanNatChars (line.drop 7) lvl) ts id
    else if goHasPrefix line "timestamp: ".data then
      metaScan rest lvl (scanTokenChars (line.drop 11)) id
    else if goHasPrefix line "id: ".data then
      metaScan rest lvl ts (scanNatChars (line.drop 4) id)
    else (lvl, ts, id)

/-- Error returned when the metadata trailer lacks the done marker
(`ErrSSTIncomplete`). -/
inductive MetadataError where
  | incomplete
deriving Repr, DecidableEq

/-- `parseSSTMetadata` from `src/storage/sst.go` (lines 176–245): reads the
last `min(512, size)` bytes of the file, splits them by newline, requires
the final line to equal `<sst_done>`, then scans lines for the metadata
fields.  The file content is given as a string of its bytes. -/
def parseSSTMetadata (filename : String) (content : String) :
    Except MetadataError SSTMeta :=
  let buf : List Char := content.data.drop (content.data.length - 512)
  let lines := splitNl buf
  if lines.getLastD [] ≠ "<sst_done>".data then .error .incomplete
  else
    let r := metaScan lines 0 [] 0
    .ok ⟨r.2.2, filename, r.1, ⟨r.2.1⟩, .SST_FLUSHED⟩

/-- Claim C6: the claim states that parsing a trailer written by
`writeSSTMetadata` with a given level, timestamp and id returns a
descriptor with exactly that level, timestamp and id.  In the code the
field-scanning loop `break`s at the first line that matches none of the
known prefixes; the 512-byte window always opens with such a line (the
empty line produced by the trailer's leading newline, or record bytes),
so the loop never reaches the `level:`/`timestamp:`/`id:` lines and every
parse returns the Go zero values `level = 0`, `id = 0` and the zero
timestamp.  The second half of the claim does hold: a tail without the
`<sst_done>` marker is rejected as `Incomplete`. -/
theorem parseSSTMetadata_returns_zero_fields :
    parseSSTMetadata "f.sst" (writeSSTMetadata 3 1 "2024-01-01T00:00:00Z") =
      .ok ⟨0, "f.sst", 0, "", .SST_FLUSHED⟩ ∧
    parseSSTMetadata "g.sst" "hello" = .error .incomplete :=
  ⟨by rfl, by rfl⟩

/-! ## Compaction: `container/heap` over `kvHeap` and `(*Compactor).compact`
(`src/storage/compactor.go`) -/

/-- `kvEntry` from `src/storage/compactor.go`. -/
structure kvEntry where
  key : Bytes
  value : Bytes
  isDeleted : Bool
  fileID : Nat
deriving Repr, DecidableEq, Inhabited

/-- Go's `string <` on byte strings: lexicographic, byte-wise, a proper
prefix is smaller. -/
def ltBytes : Bytes → Bytes → Bool
  | [], [] => false
  | [], _ :: _ => true
  | _ :: _, [] => false
  | a :: as, b :: bs => if a < b then true else if b < a then false else ltBytes as bs

/-- `kvHeap.Less(i, j)`: compares keys only — ties between equal keys are
left to the heap's internal layout. -/
def kvLess (h : List kvEntry) (i j : Nat) : Bool :=
  ltBytes (h.getD i default).key (h.getD j default).key

/-- `kvHeap.Swap(i, j)`. -/
def swapL (h : List kvEntry) (i j : Nat) : List kvEntry :=
  (h.set i (h.getD j default)).set j (h.getD i default)

/-- `container/heap`'s `up` sift.  The fuel argument only bounds the loop
(`(j-1)/2 < j` for `j ≥ 1`, so `fuel ≥ j` always suffices); it does not
change the computed value. -/
def heapUp : Nat → List kvEntry → Nat → List kvEntry
  | 0, h, _ => h
  | fuel + 1, h, j =>
    if j = 0 then h
    else
      let i := (j - 1) / 2
      if kvLess h j i then heapUp fuel (swapL h i j) i else h

/-- `container/heap`'s `down` sift restricted to `h[0:n]`; fuel as in
`heapUp` (`fuel ≥ n` suffices). -/
def heapDown : Nat → List kvEntry → Nat → Nat → List kvEntry
  | 0, h, _, _ => h
  | fuel + 1, h, i, n =>
    let j1 := 2 * i + 1
    if n ≤ j1 then h
    else
      let j := if j1 + 1 < n ∧ kvLess h (j1 + 1) j1 then j1 + 1 else j1
      if kvLess h j i then heapDown fuel (swapL h i j) j n else h

/-- `heap.Push`: append then sift up from the last slot. -/
def heapPush (h : List kvEntry) (x : kvEntry) : List kvEntry :=
  let h' := h ++ [x]
  heapUp h'.length h' (h'.length - 1)

/-- `heap.Pop`: swap the root with the last slot, sift down over the
shortened prefix, remove and return the last slot. -/
def heapPop (h : List kvEntry) : kvEntry × List kvEntry :=
  let n := h.length - 1
  let h2 := heapDown h.length (swapL h 0 n) 0 n
  (h2.getD n default, h2.take n)

/-- Outcome of `(*Compactor).compact`'s merge, recording the sequence of
records handed to `encodeSSTEntry` for the output SST (the trailer write
that follows is `writeSSTMetadata`). -/
inductive CompactResult where
  | ok (records : List SSTEntry)
  /-- a `parseSSTLine` error other than `ErrSSTEntryEOF` was returned
  (at initialization any error at all, `EOF` included, is returned). -/
  | err
  /-- `parseSSTLine` panicked. -/
  | panicked
  /-- artificial fuel exhaustion of the model's merge loop. -/
  | outOfFuel
deriving Repr, DecidableEq

/-- The initial `for idx, scanner := range scanners` loop of `compact`:
reads each input's first line, pushing `{key, value, fileID}` — note the
source does not copy `isDeleted` into the heap entry. -/
def initScan : List (List Bytes) → Nat → List kvEntry → List (List Bytes) →
    Except CompactResult (List kvEntry × List (List Bytes))
  | [], _, h, acc => .ok (h, acc.reverse)
  | f :: rest, idx, h, acc =>
    match f with
    | [] => initScan rest (idx + 1) h ([] :: acc)
    | t :: ts =>
      match parseSSTLine t with
      | .ok e => initScan rest (idx + 1)
          (heapPush h ⟨e.Key, e.Value, false, idx⟩) (ts :: acc)
      | .panicked => .error .panicked
      | _ => .error .err

/-- The `for h.Len() > 0` merge loop of `compact`: pop, emit when the key
differs from `lastKey` ("first unique key to be found is consider the
latest"), then advance the popped entry's scanner. -/
def mergeLoop : Nat → List (List Bytes) → List kvEntry → Bytes →
    List SSTEntry → CompactResult
  | 0, _, _, _, _ => .outOfFuel
  | fuel + 1, scanners, h, lastKey, out =>
    if h.isEmpty then .ok out
    else
      let p := heapPop h
      let out' := if p.1.key ≠ lastKey then
          out ++ [⟨p.1.key, p.1.value, p.1.isDeleted⟩] else out
      let lastKey' := if p.1.key ≠ lastKey then p.1.key else lastKey
      match scanners.getD p.1.fileID [] with
      | [] => mergeLoop fuel scanners p.2 lastKey' out'
      | t :: ts =>
        let scanners' := scanners.set p.1.fileID ts
        match parseSSTLine t with
        | .eof => mergeLoop fuel scanners' p.2 lastKey' out'
        | .ok e => mergeLoop fuel scanners'
            (heapPush p.2 ⟨e.Key, e.Value, false, p.1.fileID⟩) lastKey' out'
        | .panicked => .panicked
        | _ => .err

/-- `(*Compactor).compact` on the scanner-token lists of its input files,
listed in the order `ListSST` returns them (insertion order, oldest
first). -/
def compactGo (files : List (List Bytes)) (fuel : Nat) : CompactResult :=
  match initScan files 0 [] [] with
  | .error e => e
  | .ok (h, scanners) => mergeLoop fuel scanners h [] []

/-- `bufio.Scanner` line tokens of a byte string: split at newline bytes,
tokens exclude the newline, and a trailing newline produces no final
empty token.  (The scanner also strips a trailing carriage return; no
input here contains one.) -/
def splitNlBytes : Bytes → List Bytes
  | [] => [[]]
  | b :: rest =>
    match splitNlBytes rest with
    | [] => [[]]
    | g :: gs => if b = 10 then [] :: g :: gs else (b :: g) :: gs

/-- Scanner tokens of a whole file. -/
def goScanLines (content : Bytes) : List Bytes :=
  if content.isEmpty then []
  else if content.getLast? = some 10 then (splitNlBytes content).dropLast
  else splitNlBytes content

/-- Bytes of an ASCII string. -/
def asciiBytes (s : String) : Bytes :=
  s.data.map Char.toNat

/-- A complete SST file image in the binary format the compactor itself
produces: encoded records followed by the metadata trailer. -/
def sstFileBytes (recs : List SSTEntry) (id level : Nat) (ts : String) : Bytes :=
  (recs.map fun r => encodeSSTEntry r.Key r.Value r.IsDeleted).flatten ++
    asciiBytes (writeSSTMetadata id level ts)

/-- Claim C1: the claim fixes last-write-wins semantics — for each key the
output record must equal the record from the newest input (ties broken
towards the higher input index) with its tombstone flag preserved.  With
two inputs listed oldest-first whose single records share key `"b"`
(older value `"2"`, newer value `"20"`), the merge emits the OLDER
record `("b", "2")`: `kvHeap.Less` compares keys only, and with both
entries tied the pop returns the entry from input 0.  Moreover the heap
entries never carry `isDeleted`, so a compaction of one input whose
record is a tombstone emits that record with the flag cleared.  (The
bytes 98/50/48/97 are "b"/"2"/"0"/"a".) -/
theorem compact_tie_prefers_oldest :
    compactGo
      [goScanLines (sstFileBytes [⟨[98], [50], false⟩] 0 1 "2024-01-01T00:00:00Z"),
       goScanLines (sstFileBytes [⟨[98], [50, 48], false⟩] 1 1 "2024-01-01T00:00:00Z")]
      32 = .ok [⟨[98], [50], false⟩] ∧
    compactGo
      [goScanLines (sstFileBytes [⟨[97], [49], true⟩] 0 1 "2024-01-01T00:00:00Z")]
      32 = .ok [⟨[97], [49], false⟩] :=
  ⟨by rfl, by rfl⟩

/-! ## SST registry (`src/storage/sst_manager.go`) -/

/-- `storage.SST` as declared in `src/storage/sst_manager.go`: the registry
descriptor has no `ID` field. -/
structure SSTReg where
  FileName : String
  Level : Nat
  Timestamp : String
  Status : SSTState
deriving Repr, DecidableEq

/-- `NewSST` from `src/storage/sst_manager.go` (lines 85–96).  The random
`uuid.New()` token and `time.Now()` are passed in as parameters; the
function touches no registry state. -/
def NewSST (u : String) (level : Nat) (state : SSTState) (now : String) : SSTReg :=
  { FileName := u ++ ".sst", Level := level, Status := state, Timestamp := now }

/-- The `SSTManager`'s `levels` map as an association list; the list order
stands for Go's unspecified map iteration order. -/
structure SSTManager where
  levels : List (Nat × List SSTReg)
deriving Repr, DecidableEq

/-- `(*SSTManager).updateBatch` (lines 125–148): builds a filename set from
the batch and overwrites the status of every matching SST of the level.
It performs no transition validation and always returns a nil error;
`none` models the runtime panic on a level absent from the map. -/
def updateBatch (m : SSTManager) (level : Nat) (ssts : List SSTReg)
    (state : SSTState) : Option SSTManager :=
  match m.levels.find? (fun p => p.1 == level) with
  | none => none
  | some _ =>
    some ⟨m.levels.map fun p =>
      if p.1 == level then
        (p.1, p.2.map fun s =>
          if (ssts.map SSTReg.FileName).contains s.FileName then
            { s with Status := state }
          else s)
      else p⟩

/-- Claim C5: the claim states that `update_batch` rejects any transition
that is not an edge of the lifecycle DAG with `InvalidTransition` and
changes no state.  The code validates nothing: transitioning a `FLUSHED`
SST directly to `COMPACTED` (skipping `COMPACTING` — precisely the call
`startCompactor` makes on its inputs) succeeds with a nil error and the
state is changed. -/
theorem updateBatch_accepts_illegal_transition :
    updateBatch ⟨[(0, [⟨"f.sst", 0, "T", .SST_FLUSHED⟩])]⟩ 0
        [⟨"f.sst", 0, "T", .SST_FLUSHED⟩] .SST_COMPACTED =
      some ⟨[(0, [⟨"f.sst", 0, "T", .SST_COMPACTED⟩])]⟩ := by rfl

/-- Claim C7: the claim states that `new_sst` allocates a fresh per-level
id, names the file `"<level>_<id>_<uuid>.sst"` and appends the descriptor
to the level's sequence.  The code's `NewSST` composes
`fmt.Sprintf("%s%s", uuid, ".sst")` — no level, no id (the registry
descriptor has no id field at all) — and registers nothing: its result
for level 1 and uuid token `"u"` is exactly the descriptor below, whose
filename `"u.sst"` does not even start with `"1_"`. -/
theorem NewSST_name_has_no_level_or_id :
    NewSST "u" 1 .SST_FLUSHING "T" =
      { FileName := "u.sst", Level := 1, Timestamp := "T",
        Status := .SST_FLUSHING } ∧
    goStringHasPrefix (NewSST "u" 1 .SST_FLUSHING "T").FileName "1_" = false :=
  ⟨by rfl, by rfl⟩

/-! ## Memtable, engine facade and text-format reads
(`src/storage/lsm.go`, the memtable, `FlushSST` and `QueryKey` of
`src/storage/sst_manager.go`) -/

/-- `storage.MemtableEntry`; timestamps are abstract ticks. -/
structure MemtableEntry where
  Key : String
  Value : String
  Timestamp : Nat
  Deleted : Bool
deriving Repr, DecidableEq

/-- The memtable's skiplist, ordered by `strings.Compare` on keys, as a
sorted association list.  `Set` replaces the entry with an equal key. -/
def mtSet : List MemtableEntry → MemtableEntry → List MemtableEntry
  | [], e => [e]
  | x :: rest, e =>
    if e.Key < x.Key then e :: x :: rest
    else if e.Key = x.Key then e :: rest
    else x :: mtSet rest e

/-- `(*Memtable).Get`: the stored entry, or — on
`skiplist.ErrTargetNotFound` — `MemtableEntry{Key: key, Value: ""}` with
zero values for the remaining fields. -/
def mtGet (m : List MemtableEntry) (key : String) : MemtableEntry :=
  (m.find? fun x => x.Key == key).getD ⟨key, "", 0, false⟩

/-- `(*Memtable).Size`: number of live keys. -/
def mtSize (m : List MemtableEntry) : Nat := m.length

/-- `storage.KVData`. -/
structure KVData where
  Key : String
  Value : String
deriving Repr, DecidableEq

/-- `strings.SplitN(line, ":", 2)` on a character list. -/
def goSplitN2 : List Char → List (List Char)
  | [] => [[]]
  | c :: rest =>
    if c = ':' then [[], rest]
    else
      match goSplitN2 rest with
      | [] => [[c]]
      | g :: gs => (c :: g) :: gs

/-- The scanner loop inside `QueryKey` for one SST file: the first line
that splits into two `":"`-separated parts whose first part equals the
key yields its second part. -/
def querySSTFile (lines : List String) (key : String) : Option String :=
  match lines with
  | [] => none
  | line :: rest =>
    match goSplitN2 line.data with
    | [p0, p1] =>
      if (⟨p0⟩ : String) = key then some ⟨p1⟩ else querySSTFile rest key
    | _ => querySSTFile rest key

/-- The `for _, sst := range level.ssts` loop of `QueryKey`: scan files in
insertion order, stopping after the first file once `data.Key` is
non-empty (also when `data` was inherited from an earlier level). -/
def queryLevelSSTs : List (List String) → String → KVData → KVData
  | [], _, data => data
  | f :: rest, key, data =>
    let d := match querySSTFile f key with
             | some v => ⟨key, v⟩
             | none => data
    if d.Key ≠ "" then d else queryLevelSSTs rest key d

/-- `(*SSTManager).QueryKey` (lines 308–347): iterate the levels map — in
Go's unspecified map order, here the list order — never breaking the
outer loop, with `data` carried across levels.  Each SST is given by its
file's scanner lines. -/
def QueryKey (levels : List (List (List String))) (key : String) : KVData :=
  levels.foldl (fun data lvl => queryLevelSSTs lvl key data) ⟨"", ""⟩

/-- The `LSM` engine state (`src/storage/lsm.go`): the active memtable,
the `flushingMemtables` list, and the registry's SST file contents by
level. -/
structure LSM where
  Memtable : List MemtableEntry
  flushingMemtables : List (List MemtableEntry)
  levels : List (List (List String))
deriving Repr, DecidableEq

/-- `MemtableSizeThreshold` (records). -/
def MemtableSizeThreshold : Nat := 5

/-- `(*LSM).checkFlush`: when the active memtable has reached the
threshold it is appended to `flushingMemtables` and replaced by a fresh
one (the flush queue's consumer is the asynchronous `StartFlusher`
goroutine). -/
def checkFlush (l : LSM) : LSM :=
  if MemtableSizeThreshold ≤ mtSize l.Memtable then
    { l with Memtable := [],
             flushingMemtables := l.flushingMemtables ++ [l.Memtable] }
  else l

/-- `(*LSM).Set`. -/
def lsmSet (l : LSM) (key value : String) (now : Nat) : LSM :=
  checkFlush { l with Memtable := mtSet l.Memtable ⟨key, value, now, false⟩ }

/-- `(*LSM).Delete` (lines 163–166): `l.Memtable.Set(key, "", false)` — an
empty value with the deleted flag left `false`. -/
def lsmDelete (l : LSM) (key : String) (now : Nat) : LSM :=
  checkFlush { l with Memtable := mtSet l.Memtable ⟨key, "", now, false⟩ }

/-- `(*LSM).Get` (lines 136–161): consult the active memtable; when the
value found there is the empty string, fall through to
`sstManager.QueryKey`.  `flushingMemtables` is never consulted.  (The Go
error return only transports file-system failures, which the in-memory
embedding cannot produce.) -/
def lsmGet (l : LSM) (key : String) : KVData :=
  let data := mtGet l.Memtable key
  if data.Value = "" then QueryKey l.levels key
  else ⟨data.Key, data.Value⟩

/-- `(*SSTManager).FlushSST` (lines 262–294): the file content written for
a frozen memtable — `"key:value"` text lines followed by a trailer with
level 0 and no id — together with the level-0 descriptor it creates
(state `SST_FLUSHING`), which no code path ever updates or registers. -/
def FlushSST (u : String) (now : String) (mt : List MemtableEntry) :
    SSTReg × String :=
  (NewSST u 0 .SST_FLUSHING now,
   (mt.map fun e => e.Key ++ ":" ++ e.Value ++ "\n").foldl (· ++ ·) "" ++
     "<metadata>\nlevel: 0\ntimestamp: " ++ now ++ "\n<sst_done>")

/-- `bufio.Scanner` line tokens of a text file. -/
def goScanTextLines (s : String) : List String :=
  if s.data.isEmpty then []
  else if s.data.getLast? = some '\n' then
    ((splitNl s.data).dropLast).map fun l => ⟨l⟩
  else (splitNl s.data).map fun l => ⟨l⟩

/-- Claim C2: the claim states that `get` consults the active memtable,
then the frozen memtables awaiting flush, then the registry — in
particular that a record present only in a frozen memtable is returned.
In the code `Get` reads only the active memtable and `QueryKey`: with
`("k", "v")` held solely by a frozen memtable, `Get` falls through to the
empty registry and returns the zero `KVData` instead of the record.
(`QueryKey` additionally walks the levels map in Go's unspecified map
iteration order, not level 0 first, and scans each level's slice in
insertion order, oldest first — not newest first.) -/
theorem lsmGet_ignores_flushing_memtables :
    lsmGet ⟨[], [[⟨"k", "v", 1, false⟩]], []⟩ "k" = ⟨"", ""⟩ ∧
    mtGet [⟨"k", "v", 1, false⟩] "k" = ⟨"k", "v", 1, false⟩ :=
  ⟨by rfl, by rfl⟩

/-- Claim C3: the claim states that `delete` writes a tombstone-flagged
record and that `set("k","x"); delete("k"); get("k")` is absent even
across flushes.  The code's `Delete` writes `Set(key, "", false)` — the
`Deleted` flag stays `false` — and once `("k", "x")` has been flushed
into a level-0 SST, `Get` after the delete sees the empty value in the
memtable, falls through to the SSTs and returns the old value `"x"`. -/
theorem lsmDelete_writes_no_tombstone :
    (lsmDelete ⟨[], [], []⟩ "k" 2).Memtable = [⟨"k", "", 2, false⟩] ∧
    lsmGet
      (lsmDelete
        ⟨[], [],
         [[goScanTextLines (FlushSST "u" "T" [⟨"k", "x", 1, false⟩]).2]]⟩
        "k" 2) "k" = ⟨"k", "x"⟩ :=
  ⟨by rfl, by rfl⟩

/-- Claim C4: the claim states that the flush pipeline writes each record
with the binary codec and transitions the SST to `FLUSHED` via
`update_batch(0, [sst], FLUSHED)`.  The code's `FlushSST` writes
`"key:value"` text lines — the line `"a:1"` cannot be decoded by
`parseSSTLine`, which rejects it as too short — and neither `FlushSST`
nor `StartFlusher` calls `updateBatch`: the descriptor created with state
`SST_FLUSHING` is returned unchanged (and is never even added to the
registry). -/
theorem FlushSST_text_format_and_no_transition :
    (FlushSST "u" "T" [⟨"a", "1", 0, false⟩]).2 =
      "a:1\n<metadata>\nlevel: 0\ntimestamp: T\n<sst_done>" ∧
    (goScanTextLines (FlushSST "u" "T" [⟨"a", "1", 0, false⟩]).2).getD 0 "" =
      "a:1" ∧
    parseSSTLine (asciiBytes "a:1") = .errTooShort ∧
    (FlushSST "u" "T" [⟨"a", "1", 0, false⟩]).1.Status = .SST_FLUSHING :=
  ⟨by rfl, by rfl, by rfl, by rfl⟩

/-- Claim C9: the engine cannot distinguish an empty stored value from
absence.  Whenever the active memtable's entry for `k` carries the empty
string (as after `set(k, "")` or `delete(k)`), `Get` ignores it and
returns whatever the registry scan produces — the stale SST record — and
with an empty memtable and empty registry a never-written key yields the
(non-nil) zero `KVData` with empty value rather than an explicit
absent. -/
theorem lsmGet_empty_value_indistinguishable :
    (∀ (mt : List MemtableEntry) (fm : List (List MemtableEntry))
        (lvls : List (List (List String))) (k v : String),
        (mtGet mt k).Value = "" → QueryKey lvls k = ⟨k, v⟩ →
        lsmGet ⟨mt, fm, lvls⟩ k = ⟨k, v⟩) ∧
    (∀ (fm : List (List MemtableEntry)) (k : String),
        lsmGet ⟨[], fm, []⟩ k = ⟨"", ""⟩) := by
  constructor
  · intro mt fm lvls k v hmem hsst
    show (if (mtGet mt k).Value = "" then QueryKey lvls k
          else ⟨(mtGet mt k).Key, (mtGet mt k).Value⟩) = KVData.mk k v
    rw [hmem, if_pos rfl, hsst]
  · intro fm k
    rfl

/-- Witness for C9: `set("k", "")` followed by `get("k")` while a level-0
SST still holds `("k", "old")` returns the stale `"old"`. -/
theorem lsmGet_empty_value_indistinguishable_witness :
    lsmGet ⟨[⟨"k", "", 3, false⟩], [], [[["k:old"]]]⟩ "k" = ⟨"k", "old"⟩ :=
  lsmGet_empty_value_indistinguishable.1 [⟨"k", "", 3, false⟩] [] [[["k:old"]]]
    "k" "old" (by rfl) (by rfl)

end DistriKV
